import Mathlib

/-!
# Verification of the "Did I Pay?" bookkeeping engine

A shallow embedding of the core logic of the single-file React expense
tracker (src/types.ts and the main application component): the payment
record data model, the balance engine (`PersonDetail`'s reduce), the
reminder engine (`Home`'s nudge scan), the archive/undo engine
(`archiveData` / `undoArchive` and the undo timer callback), the
search/filter engine (`filteredExpenses`), the form-save guard
(`handleSave` in `AddExpense`), and the load effect.

JavaScript numbers are modelled as rationals (`ℚ`); JavaScript strings as
Lean `String` (lists of characters), with the JS string operations used by
the code (`toLowerCase`, `includes`, `trim`, `slice`, number `toString`,
`parseFloat`) given explicit executable models below.
-/

/-- `PaymentMode` from src/types.ts: `'Cash' | 'UPI'`. -/
inductive PaymentMode : Type
  | cash
  | upi
deriving DecidableEq, Repr

/-- The literal string of a `PaymentMode` value, as it appears in the data. -/
def PaymentMode.toStr : PaymentMode → String
  | .cash => "Cash"
  | .upi => "UPI"

/-- `PaymentStatus` from src/types.ts: `'I Paid' | 'They Paid' | 'Split'`. -/
inductive PaymentStatus : Type
  | iPaid
  | theyPaid
  | split
deriving DecidableEq, Repr

/-- `Expense` from src/types.ts.  `label` and `proof` are optional fields
(`label?: string`, `proof?: string`), modelled as `Option`.  `amount` and
`timestamp` are JS numbers, modelled as `ℚ` and `ℤ` respectively
(timestamps are epoch milliseconds). -/
structure Expense : Type where
  id : String
  amount : ℚ
  person : String
  mode : PaymentMode
  label : Option String
  status : PaymentStatus
  timestamp : ℤ
  proof : Option String
deriving DecidableEq, Repr

/-! ## Balance engine

`PersonDetail` computes
```
const balance = expenses.reduce((acc, curr) => {
  if (curr.status === 'They Paid') return acc - curr.amount;
  if (curr.status === 'Split') return acc + (curr.amount / 2);
  return acc + curr.amount;
}, 0);
```
-/

/-- One step of the `reduce` in `PersonDetail`'s balance computation. -/
def balanceStep (acc : ℚ) (curr : Expense) : ℚ :=
  if curr.status = .theyPaid then acc - curr.amount
  else if curr.status = .split then acc + curr.amount / 2
  else acc + curr.amount

/-- `expenses.reduce(balanceStep, 0)` from `PersonDetail`. -/
def computeBalance (expenses : List Expense) : ℚ :=
  expenses.foldl balanceStep 0

/-- The per-record contribution named by the spec: `They Paid` ↦ `-amount`,
`Split` ↦ `+amount/2`, `I Paid` ↦ `+amount`. -/
def contribution (e : Expense) : ℚ :=
  match e.status with
  | .theyPaid => -e.amount
  | .split => e.amount / 2
  | .iPaid => e.amount

theorem computeBalance_foldl_eq (expenses : List Expense) (a : ℚ) :
    expenses.foldl balanceStep a = a + (expenses.map contribution).sum := by
  induction expenses generalizing a with
  | nil => simp
  | cons e es ih =>
    simp only [List.foldl_cons, List.map_cons, List.sum_cons, ih]
    cases h : e.status <;>
      simp [balanceStep, contribution, h] <;> ring

/-- C1: `computeBalance` sums per-record contributions, where a record with
status `They Paid` contributes `-amount`, `Split` contributes `+amount/2`,
and `I Paid` contributes `+amount`; the sum over the empty sequence is 0. -/
theorem computeBalance_eq_sum_contributions (expenses : List Expense) :
    computeBalance expenses = (expenses.map contribution).sum ∧
    computeBalance [] = 0 := by
  constructor
  · rw [computeBalance, computeBalance_foldl_eq]; ring
  · rfl

/-! ## Archive/undo engine

The relevant application state for `archiveData` / `undoArchive`:
`expenses` (the active set, a `useState`), the parsed contents of the
`ARCHIVE_KEY` localStorage slot, the `lastArchivedData` ref, and the
`showUndo` flag.  The undo timer fires `() => setShowUndo(false)`.
-/

/-- The application state touched by the archive/undo engine. -/
structure AppState : Type where
  expenses : List Expense
  archive : List Expense
  lastArchivedData : List Expense
  showUndo : Bool
deriving DecidableEq, Repr

/-- The initial state: `useState<Expense[]>([])`, empty archive slot
(`getItem` of a missing key parses as `'[]'`), `useRef<Expense[]>([])`,
`useState(false)`. -/
def initialState : AppState :=
  { expenses := [], archive := [], lastArchivedData := [], showUndo := false }

/-- `addExpense`: the new record (built from the form data with a fresh id
and timestamp) is prepended: `setExpenses([newExpense, ...expenses])`. -/
def addExpense (e : Expense) (s : AppState) : AppState :=
  { s with expenses := e :: s.expenses }

/-- `Array.prototype.slice(0, e)`: a negative end index counts from the end
of the array; the result is the prefix up to the (clamped) resolved index. -/
def jsSliceFromZero (l : List Expense) (e : ℤ) : List Expense :=
  l.take (if e < 0 then (l.length : ℤ) + e else e).toNat

/-- `archiveData`: no-op when the active set is empty; otherwise snapshot
the active set into `lastArchivedData`, append it to the archive slot
(`[...currentArchive, ...expenses]`), clear the active set, show the undo
toast, and (re)start the 10-second timer. -/
def archiveData (s : AppState) : AppState :=
  if s.expenses.length = 0 then s
  else
    { expenses := [],
      archive := s.archive ++ s.expenses,
      lastArchivedData := s.expenses,
      showUndo := true }

/-- `undoArchive`: when `lastArchivedData` is non-empty, restore the active
set from it, drop the same number of entries from the tail of the archive
slot (`currentArchive.slice(0, currentArchive.length -
lastArchivedData.current.length)`), clear the buffer and hide the toast. -/
def undoArchive (s : AppState) : AppState :=
  if s.lastArchivedData.length > 0 then
    { expenses := s.lastArchivedData,
      archive := jsSliceFromZero s.archive
        ((s.archive.length : ℤ) - (s.lastArchivedData.length : ℤ)),
      lastArchivedData := [],
      showUndo := false }
  else s

/-- The undo timer's expiry callback: `() => setShowUndo(false)`. -/
def timerExpire (s : AppState) : AppState :=
  { s with showUndo := false }

/-- C2: for every state with a non-empty active set, `undo()` immediately
after `archive()` restores the active set to exactly its pre-archive
contents (same records, same order) and restores the archive slot exactly
(in particular its length is what it was before the archive call). -/
theorem undo_after_archive_round_trip (s : AppState) (h : s.expenses ≠ []) :
    (undoArchive (archiveData s)).expenses = s.expenses ∧
    (undoArchive (archiveData s)).archive = s.archive ∧
    (undoArchive (archiveData s)).archive.length = s.archive.length := by
  obtain ⟨exp, arch, buf, toast⟩ := s
  simp only at h ⊢
  have hlen : ¬ exp.length = 0 := by simpa [List.length_eq_zero] using h
  have hpos : 0 < exp.length := Nat.pos_of_ne_zero hlen
  have hslice : jsSliceFromZero (arch ++ exp) (arch.length : ℤ) = arch := by
    rw [jsSliceFromZero, if_neg (by omega)]
    simp [List.take_left]
  simp [archiveData, undoArchive, hlen, hpos, hslice]

/-- Witness for C2 at a concrete one-record state. -/
theorem undo_after_archive_round_trip_witness :
    (undoArchive (archiveData
      { expenses := [{ id := "a1", amount := 120, person := "Rohit",
                       mode := .upi, label := none, status := .iPaid,
                       timestamp := 0, proof := none }],
        archive := [], lastArchivedData := [], showUndo := false })).expenses =
      [{ id := "a1", amount := 120, person := "Rohit", mode := .upi,
         label := none, status := .iPaid, timestamp := 0, proof := none }] :=
  (undo_after_archive_round_trip _ (by decide)).1

/-! ## C3: the undo timer only hides the toast

The timer callback in `archiveData` is `() => setShowUndo(false)`; it does
not clear `lastArchivedData`, and `undoArchive` tests
`lastArchivedData.current.length > 0`, not `showUndo`.
-/

/-- A concrete record used in counterexamples and witnesses. -/
def sampleExpense : Expense :=
  { id := "a1", amount := 120, person := "Rohit", mode := .upi,
    label := none, status := .iPaid, timestamp := 0, proof := none }

/-- C3 counterexample: after `archive()` on a one-record active set and the
timer expiry, the undo buffer is still non-empty, and invoking `undo()`
changes the active set (it is not a no-op). -/
theorem undo_after_expiry_still_mutates :
    (timerExpire (archiveData
        (addExpense sampleExpense initialState))).lastArchivedData ≠ [] ∧
    (undoArchive (timerExpire (archiveData
        (addExpense sampleExpense initialState)))).expenses ≠
      (timerExpire (archiveData
        (addExpense sampleExpense initialState))).expenses := by
  decide

/-- C3 amended: timer expiry only sets `showUndo` to `false` (hiding the
undo affordance); the `lastArchivedData` buffer is retained, and an
invocation of `undo()` after expiry still restores the active set and the
archive slot exactly as an undo inside the window would. -/
theorem timer_expiry_keeps_undo_buffer (s : AppState) (h : s.expenses ≠ []) :
    (timerExpire (archiveData s)).showUndo = false ∧
    (timerExpire (archiveData s)).lastArchivedData = s.expenses ∧
    (undoArchive (timerExpire (archiveData s))).expenses = s.expenses ∧
    (undoArchive (timerExpire (archiveData s))).archive = s.archive := by
  obtain ⟨exp, arch, buf, toast⟩ := s
  simp only at h ⊢
  have hlen : ¬ exp.length = 0 := by simpa [List.length_eq_zero] using h
  have hpos : 0 < exp.length := Nat.pos_of_ne_zero hlen
  have hslice : jsSliceFromZero (arch ++ exp) (arch.length : ℤ) = arch := by
    rw [jsSliceFromZero, if_neg (by omega)]
    simp [List.take_left]
  simp [archiveData, timerExpire, undoArchive, hlen, hpos, hslice]

/-- Witness for the amended C3 at a concrete one-record state. -/
theorem timer_expiry_keeps_undo_buffer_witness :
    (undoArchive (timerExpire (archiveData
      { expenses := [sampleExpense], archive := [],
        lastArchivedData := [], showUndo := false }))).expenses =
      [sampleExpense] :=
  (timer_expiry_keeps_undo_buffer _ (by decide)).2.2.1

/-! ## C5: order of an appended archive batch -/

/-- Oldest-first: timestamps are nondecreasing along the list. -/
def oldestFirst : List Expense → Bool
  | [] => true
  | [_] => true
  | a :: b :: t => decide (a.timestamp ≤ b.timestamp) && oldestFirst (b :: t)

/-- An older record (timestamp 1000), added first. -/
def sampleOld : Expense :=
  { id := "e1", amount := 50, person := "Asha", mode := .cash,
    label := some "Chai", status := .split, timestamp := 1000, proof := none }

/-- A newer record (timestamp 2000), added second. -/
def sampleNew : Expense :=
  { id := "e2", amount := 75, person := "Asha", mode := .upi,
    label := none, status := .theyPaid, timestamp := 2000, proof := none }

/-- C5 counterexample: adding an older then a newer record and archiving
appends the batch `[sampleNew, sampleOld]` (the whole archive, since the
prior archive was empty), which is newest-first, not oldest-first. -/
theorem archive_batch_not_oldest_first :
    (archiveData (addExpense sampleNew
        (addExpense sampleOld initialState))).archive =
      [sampleNew, sampleOld] ∧
    oldestFirst (archiveData (addExpense sampleNew
        (addExpense sampleOld initialState))).archive = false := by
  decide

/-- C5 amended: the batch appended by `archive()` is the active set in its
stored order, appended after the existing archive contents; since new
records are prepended to the active set, a batch of records added over time
is newest-first, not oldest-first. -/
theorem archive_appends_active_set_in_stored_order
    (s : AppState) (h : s.expenses ≠ []) :
    (archiveData s).archive = s.archive ++ s.expenses := by
  have hlen : ¬ s.expenses.length = 0 := by
    simpa [List.length_eq_zero] using h
  rw [archiveData, if_neg hlen]

/-- Witness for the amended C5 at a concrete two-record state. -/
theorem archive_appends_active_set_in_stored_order_witness :
    (archiveData
      { expenses := [sampleNew, sampleOld], archive := [],
        lastArchivedData := [], showUndo := false }).archive =
      [] ++ [sampleNew, sampleOld] :=
  archive_appends_active_set_in_stored_order _ (by decide)

/-! ## C4: the load effect

```
const saved = localStorage.getItem(STORAGE_KEY);
if (saved) { setExpenses(JSON.parse(saved)); }
```
There is no try/catch: `JSON.parse` on unparseable data throws and the
exception propagates out of the effect.
-/

/-- The load effect on the active-set key.  The stored value is modelled as
`none` (nothing saved: `getItem` returns `null`, the `if` is skipped and
`expenses` keeps its initial `[]`), `some none` (present but unparseable:
`JSON.parse` throws, and with no handler the error propagates), or
`some (some l)` (present and parsed to the record list `l`, which becomes
the active set). -/
def loadActive : Option (Option (List Expense)) → Except Unit (List Expense)
  | none => .ok []
  | some none => .error ()
  | some (some l) => .ok l

/-- C4 counterexample: a present-but-corrupt stored value makes the load
effect raise (the `JSON.parse` exception propagates) instead of yielding
the empty record set. -/
theorem load_corrupt_raises :
    loadActive (some none) = .error () ∧
    loadActive (some none) ≠ .ok [] := by
  exact ⟨rfl, by simp [loadActive]⟩

/-- C4 amended: `load` yields the empty record set when the stored value is
absent, and the parsed list when it parses; when the stored value is
present but unparseable, the `JSON.parse` error propagates to the caller
(there is no handler). -/
theorem load_absent_empty_corrupt_raises :
    loadActive none = .ok [] ∧
    loadActive (some none) = .error () ∧
    ∀ l : List Expense, loadActive (some (some l)) = .ok l :=
  ⟨rfl, rfl, fun _ => rfl⟩

/-! ## JS string operations

Models of the string builtins the component uses: `toLowerCase`,
`includes`, `trim`, and `parseFloat`.  Characters beyond ASCII are carried
through unchanged (`Char.toLower` is the identity outside `A`–`Z`, matching
`toLowerCase` on the ASCII range; `trim` strips the common ASCII whitespace
characters).
-/

/-- Whitespace as stripped by `String.prototype.trim` (ASCII subset). -/
def isWsChar (c : Char) : Bool :=
  c = ' ' || c = '\t' || c = '\n' || c = '\r'

/-- `s.trim()`: strip leading and trailing whitespace. -/
def jsTrim (s : String) : String :=
  String.mk (((s.data.dropWhile isWsChar).reverse.dropWhile isWsChar).reverse)

/-- `s.toLowerCase()` (ASCII range). -/
def jsToLower (s : String) : String :=
  String.mk (s.data.map Char.toLower)

/-- Whether the first list is an initial segment of the second. -/
def startsWithChars : List Char → List Char → Bool
  | [], _ => true
  | _ :: _, [] => false
  | a :: as, b :: bs => a = b && startsWithChars as bs

/-- Whether the first list occurs as a contiguous run inside the second. -/
def containsChars : List Char → List Char → Bool
  | needle, [] => startsWithChars needle []
  | needle, b :: bs => startsWithChars needle (b :: bs) || containsChars needle bs

/-- `hay.includes(needle)`: substring containment. -/
def jsIncludes (hay needle : String) : Bool :=
  containsChars needle.data hay.data

/-- Accumulate a run of leading decimal digits: value, digit count, rest. -/
def digitsAcc : List Char → ℕ → ℕ → ℕ × ℕ × List Char
  | c :: cs, acc, cnt =>
    if c.isDigit then digitsAcc cs (10 * acc + (c.toNat - 48)) (cnt + 1)
    else (acc, cnt, c :: cs)
  | [], acc, cnt => (acc, cnt, [])

/-- `parseFloat(s)` on the decimal forms the form can produce: optional
leading whitespace, optional sign, integer digits, optional fraction.
`none` models `NaN` (no digits at all).  Exponent forms are outside the
modelled subset. -/
def jsParseFloat (s : String) : Option ℚ :=
  let cs := s.data.dropWhile isWsChar
  let signed : ℚ × List Char :=
    match cs with
    | '-' :: t => (-1, t)
    | '+' :: t => (1, t)
    | _ => (1, cs)
  let (ip, icnt, cs2) := digitsAcc signed.2 0 0
  match cs2 with
  | '.' :: t =>
    let (fp, fcnt, _) := digitsAcc t 0 0
    if icnt = 0 ∧ fcnt = 0 then none
    else some (signed.1 * ((ip : ℚ) + (fp : ℚ) / 10 ^ fcnt))
  | _ => if icnt = 0 then none else some (signed.1 * (ip : ℚ))

/-! ## The form-save guard (`handleSave` in `AddExpense`) -/

/-- The `AddExpense` form state read by `handleSave`: `amount`, `person`
and `label` are raw text-input strings. -/
structure SaveForm : Type where
  amount : String
  person : String
  mode : PaymentMode
  label : String
  status : PaymentStatus
  proof : Option String
deriving DecidableEq, Repr

/-- The object `handleSave` passes to `onSave`
(`Omit<Expense, 'id' | 'timestamp'>`): `amount` is `parseFloat(amount)`
(`none` modelling `NaN`), `person` and `label` are trimmed. -/
structure NewExpenseData : Type where
  amount : Option ℚ
  person : String
  mode : PaymentMode
  label : String
  status : PaymentStatus
  proof : Option String
deriving DecidableEq, Repr

/-- `handleSave`: `if (!amount || !person) return;` (a JS string is falsy
exactly when it is empty), otherwise build the save payload with
`parseFloat(amount)` and trimmed `person` and `label`. -/
def handleSave (f : SaveForm) : Option NewExpenseData :=
  if f.amount = "" ∨ f.person = "" then none
  else some { amount := jsParseFloat f.amount, person := jsTrim f.person,
              mode := f.mode, label := jsTrim f.label,
              status := f.status, proof := f.proof }

/-- The `Expense` built by `addExpense` from the saved payload once a fresh
`id` and `timestamp` are assigned, in the case where the parsed amount is
an actual number `a` (`label` is always present on form-created records,
possibly the empty string). -/
def buildExpense (d : NewExpenseData) (a : ℚ) (id : String) (ts : ℤ) :
    Expense :=
  { id := id, amount := a, person := d.person, mode := d.mode,
    label := some d.label, status := d.status, timestamp := ts,
    proof := d.proof }

/-- C9 counterexample: the input `amount = "0"`, `person = " "` passes the
guard (both raw strings are non-empty) and is saved with parsed amount `0`
and person trimmed to the empty string; prepending the built record to an
empty active set admits a record with `amount = 0` (not `> 0`) and an empty
`person`. -/
theorem form_guard_admits_zero_amount_blank_person :
    handleSave { amount := "0", person := " ", mode := .upi, label := "",
                 status := .iPaid, proof := none } =
      some { amount := some 0, person := "", mode := .upi, label := "",
             status := .iPaid, proof := none } ∧
    (addExpense
        (buildExpense
          { amount := some 0, person := "", mode := .upi, label := "",
            status := .iPaid, proof := none } 0 "id1" 5) initialState).expenses =
      [{ id := "id1", amount := 0, person := "", mode := .upi,
         label := some "", status := .iPaid, timestamp := 5, proof := none }] ∧
    ¬ ((0 : ℚ) > 0 ∧ ("" : String) ≠ "") := by
  refine ⟨?_, rfl, by decide⟩
  have h1 : (1 : ℚ) * ((0 : ℕ) : ℚ) = 0 := by simp
  calc handleSave { amount := "0", person := " ", mode := .upi, label := "",
                    status := .iPaid, proof := none }
      = some { amount := some ((1 : ℚ) * ((0 : ℕ) : ℚ)), person := "",
               mode := .upi, label := "", status := .iPaid,
               proof := none } := rfl
    _ = some { amount := some 0, person := "", mode := .upi, label := "",
               status := .iPaid, proof := none } := by rw [h1]

/-- C9 amended: `handleSave` blocks the save exactly when the raw amount
string or the raw person string is empty; an admitted payload carries
`parseFloat` of the raw amount and the trimmed person, so records with
non-positive amounts (e.g. input "0") or an empty trimmed person
(whitespace-only input) are admitted: `amount > 0` and non-empty `person`
are not invariants of admitted records. -/
theorem handleSave_guard_characterization (f : SaveForm) :
    (handleSave f = none ↔ (f.amount = "" ∨ f.person = "")) ∧
    (∀ r, handleSave f = some r →
      r.amount = jsParseFloat f.amount ∧ r.person = jsTrim f.person ∧
      r.label = jsTrim f.label ∧ r.mode = f.mode ∧
      r.status = f.status ∧ r.proof = f.proof) := by
  constructor
  · constructor
    · intro h
      by_contra hc
      rw [handleSave, if_neg hc] at h
      exact Option.noConfusion h
    · intro h
      rw [handleSave, if_pos h]
  · intro r h
    rw [handleSave] at h
    by_cases hc : f.amount = "" ∨ f.person = ""
    · rw [if_pos hc] at h
      exact Option.noConfusion h
    · rw [if_neg hc] at h
      obtain rfl := Option.some.injEq _ _ ▸ h
      simp_all

/-- Witness for the amended C9: an empty raw amount blocks the save. -/
theorem handleSave_guard_characterization_witness :
    handleSave { amount := "", person := "x", mode := .cash, label := "",
                 status := .split, proof := none } = none :=
  (handleSave_guard_characterization _).1.mpr (Or.inl rfl)

/-- C10: a save passing the guard stores `person` and `label` with leading
and trailing whitespace removed; in particular a whitespace-only `person`
(non-empty, so it passes the guard, which checks only raw non-emptiness)
is stored as the empty string. -/
theorem saved_fields_are_trimmed (f : SaveForm)
    (ha : f.amount ≠ "") (hp : f.person ≠ "") :
    (∃ r, handleSave f = some r ∧ r.person = jsTrim f.person ∧
      r.label = jsTrim f.label) ∧
    ((∀ c ∈ f.person.data, isWsChar c) →
      ∃ r, handleSave f = some r ∧ r.person = "") := by
  have hg : ¬ (f.amount = "" ∨ f.person = "") := by
    rintro (h | h)
    · exact ha h
    · exact hp h
  have heq : handleSave f =
      some { amount := jsParseFloat f.amount,
             person := jsTrim f.person, mode := f.mode,
             label := jsTrim f.label, status := f.status,
             proof := f.proof } := by
    rw [handleSave, if_neg hg]
  refine ⟨⟨_, heq, rfl, rfl⟩, fun hws => ⟨_, heq, ?_⟩⟩
  show jsTrim f.person = ""
  have h1 : f.person.data.dropWhile isWsChar = [] :=
    List.dropWhile_eq_nil_iff.mpr hws
  rw [jsTrim, h1]
  rfl

/-- Witness for C10: amount "1" and a single-space person pass the guard
and the stored person is the empty string. -/
theorem saved_fields_are_trimmed_witness :
    ∃ r, handleSave
        { amount := "1", person := " ", mode := .cash,
          label := " chai ", status := .split, proof := none } = some r ∧
      r.person = "" :=
  (saved_fields_are_trimmed _ (by decide) (by decide)).2 (by decide)

/-! ## Reminder engine (`Home`'s nudge scan)

```
const nudgeItem = expenses.find(e => {
  const ageInDays = (Date.now() - e.timestamp) / (1000 * 60 * 60 * 24);
  return ageInDays > 3 && ageInDays < 7;
});
```
-/

/-- The nudge predicate: age in days, `(now - timestamp) / 86400000`,
strictly between 3 and 7. -/
def nudgeQualifies (now : ℤ) (e : Expense) : Bool :=
  decide (((now - e.timestamp : ℤ) : ℚ) / (1000 * 60 * 60 * 24) > 3) &&
  decide (((now - e.timestamp : ℤ) : ℚ) / (1000 * 60 * 60 * 24) < 7)

/-- `Home`'s `nudgeItem`: the first record in iteration order (the active
set is newest-first) whose age qualifies. -/
def findNudgeCandidate (now : ℤ) (expenses : List Expense) : Option Expense :=
  expenses.find? (nudgeQualifies now)

/-- C7: `findNudgeCandidate` returns `none` exactly when no record's age
`(now - timestamp) / 86400000` lies strictly between 3 and 7; a returned
record qualifies and is the first qualifying record in iteration order;
and records aged exactly 3, 7, 2 or 8 days do not qualify. -/
theorem findNudgeCandidate_first_strict_window (now : ℤ) (es : List Expense) :
    (findNudgeCandidate now es = none ↔
      ∀ e ∈ es, nudgeQualifies now e = false) ∧
    (∀ e, findNudgeCandidate now es = some e →
      nudgeQualifies now e = true ∧
      ∃ as bs, es = as ++ e :: bs ∧ ∀ a ∈ as, nudgeQualifies now a = false) ∧
    (∀ e : Expense, (now - e.timestamp = 3 * 86400000 ∨
        now - e.timestamp = 7 * 86400000 ∨
        now - e.timestamp = 2 * 86400000 ∨
        now - e.timestamp = 8 * 86400000) →
      nudgeQualifies now e = false) := by
  refine ⟨?_, ?_, ?_⟩
  · rw [findNudgeCandidate, List.find?_eq_none]
    simp
  · intro e h
    rw [findNudgeCandidate, List.find?_eq_some] at h
    obtain ⟨hq, as, bs, hsplit, hfail⟩ := h
    exact ⟨hq, as, bs, hsplit, fun a ha => by simpa using hfail a ha⟩
  · intro e h
    rcases h with h | h | h | h <;>
      · rw [nudgeQualifies, h]
        norm_num

/-- Witness for C7: with `now - timestamp` exactly three days in
milliseconds, the record does not qualify. -/
theorem findNudgeCandidate_first_strict_window_witness :
    nudgeQualifies (3 * 86400000) sampleExpense = false :=
  (findNudgeCandidate_first_strict_window (3 * 86400000) []).2.2
    sampleExpense (Or.inl (by decide))

/-! ## Balance label (`PersonDetail`'s `balanceText`)

```
const balanceText = balance > 0 ? `Owes you ₹${balance.toFixed(0)}`
  : balance < 0 ? `You owe ₹${Math.abs(balance).toFixed(0)}` : `Settled Up`;
```
-/

/-- `n.toFixed(0)`: the integer nearest to `n`, ties resolved toward the
larger integer (ECMA-262 `Number.prototype.toFixed` picks the larger `n`
on a tie), rendered in decimal. -/
def jsToFixed0 (q : ℚ) : String :=
  toString ⌊q + 1 / 2⌋

/-- `balanceText` from `PersonDetail`. -/
def formatBalanceLabel (balance : ℚ) : String :=
  if balance > 0 then "Owes you ₹" ++ jsToFixed0 balance
  else if balance < 0 then "You owe ₹" ++ jsToFixed0 |balance|
  else "Settled Up"

/-- The "counterparty owes the user" form. -/
def isOwesYouForm (s : String) : Bool :=
  startsWithChars "Owes you ₹".data s.data

/-- The "user owes counterparty" form. -/
def isYouOweForm (s : String) : Bool :=
  startsWithChars "You owe ₹".data s.data

/-- The settled form. -/
def isSettledForm (s : String) : Bool :=
  decide (s = "Settled Up")

theorem startsWithChars_self_append (xs ys : List Char) :
    startsWithChars xs (xs ++ ys) = true := by
  induction xs with
  | nil => rfl
  | cons a as ih => simp [startsWithChars, ih]

theorem startsWithChars_head_ne (a b : Char) (as bs : List Char)
    (h : ¬ a = b) : startsWithChars (a :: as) (b :: bs) = false := by
  simp [startsWithChars, h]

theorem append_ne_of_head_ne (p q : String) (a b : Char) (ap aq : List Char)
    (hp : p.data = a :: ap) (hq : q.data = b :: aq) (h : ¬ a = b)
    (t : String) : p ++ t ≠ q := by
  intro hc
  have h2 := congrArg String.data hc
  rw [String.data_append, hp, hq, List.cons_append] at h2
  have h5 : a = b := by injection h2
  exact h h5

theorem startsWithChars_data_append_ne (p q : String) (a b : Char)
    (ap aq : List Char) (hp : p.data = a :: ap) (hq : q.data = b :: aq)
    (h : ¬ b = a) (t : String) :
    startsWithChars q.data (p ++ t).data = false := by
  rw [String.data_append, hp, hq, List.cons_append]
  exact startsWithChars_head_ne _ _ _ _ h

/-- C8: `formatBalanceLabel` produces exactly one of three mutually
exclusive forms determined by sign: positive yields the "counterparty owes
the user" form with the magnitude rounded to 0 decimal places, negative the
"user owes counterparty" form with the rounded absolute magnitude, and zero
the settled form. -/
theorem formatBalanceLabel_sign_trichotomy (b : ℚ) :
    (b > 0 → formatBalanceLabel b = "Owes you ₹" ++ jsToFixed0 b ∧
      isOwesYouForm (formatBalanceLabel b) = true ∧
      isYouOweForm (formatBalanceLabel b) = false ∧
      isSettledForm (formatBalanceLabel b) = false) ∧
    (b < 0 → formatBalanceLabel b = "You owe ₹" ++ jsToFixed0 |b| ∧
      isYouOweForm (formatBalanceLabel b) = true ∧
      isOwesYouForm (formatBalanceLabel b) = false ∧
      isSettledForm (formatBalanceLabel b) = false) ∧
    (b = 0 → formatBalanceLabel b = "Settled Up" ∧
      isSettledForm (formatBalanceLabel b) = true ∧
      isOwesYouForm (formatBalanceLabel b) = false ∧
      isYouOweForm (formatBalanceLabel b) = false) := by
  have hOwes : ("Owes you ₹" : String).data = 'O' :: "wes you ₹".data := rfl
  have hOwe : ("You owe ₹" : String).data = 'Y' :: "ou owe ₹".data := rfl
  have hSet : ("Settled Up" : String).data = 'S' :: "ettled Up".data := rfl
  refine ⟨fun hb => ?_, fun hb => ?_, fun hb => ?_⟩
  · have heq : formatBalanceLabel b = "Owes you ₹" ++ jsToFixed0 b := by
      rw [formatBalanceLabel, if_pos hb]
    refine ⟨heq, ?_, ?_, ?_⟩
    · rw [heq, isOwesYouForm, String.data_append]
      exact startsWithChars_self_append _ _
    · rw [heq, isYouOweForm]
      exact startsWithChars_data_append_ne _ _ _ _ _ _ hOwes hOwe
        (by decide) _
    · rw [heq, isSettledForm]
      exact decide_eq_false
        (append_ne_of_head_ne _ _ _ _ _ _ hOwes hSet (by decide) _)
  · have hng : ¬ b > 0 := by linarith
    have heq : formatBalanceLabel b = "You owe ₹" ++ jsToFixed0 |b| := by
      rw [formatBalanceLabel, if_neg hng, if_pos hb]
    refine ⟨heq, ?_, ?_, ?_⟩
    · rw [heq, isYouOweForm, String.data_append]
      exact startsWithChars_self_append _ _
    · rw [heq, isOwesYouForm]
      exact startsWithChars_data_append_ne _ _ _ _ _ _ hOwe hOwes
        (by decide) _
    · rw [heq, isSettledForm]
      exact decide_eq_false
        (append_ne_of_head_ne _ _ _ _ _ _ hOwe hSet (by decide) _)
  · subst hb
    have heq : formatBalanceLabel 0 = "Settled Up" := by
      rw [formatBalanceLabel, if_neg (by norm_num), if_neg (by norm_num)]
    rw [heq]
    exact ⟨rfl, by decide, by decide, by decide⟩

/-- Witness for C8: a positive balance of 120 yields the "owes you" form. -/
theorem formatBalanceLabel_sign_trichotomy_witness :
    (0 : ℚ) < 120 ∧
    formatBalanceLabel 120 = "Owes you ₹" ++ jsToFixed0 120 :=
  ⟨by decide, ((formatBalanceLabel_sign_trichotomy 120).1 (by decide)).1⟩

/-! ## Search/filter engine (`filteredExpenses`)

```
if (!searchQuery) return expenses;
const query = searchQuery.toLowerCase();
return expenses.filter(e =>
  e.person.toLowerCase().includes(query) ||
  e.label?.toLowerCase().includes(query) ||
  e.amount.toString().includes(query) ||
  e.mode.toLowerCase().includes(query)
);
```
-/

/-- The fractional decimal digits of `num/den` (`num < den`), produced by
repeated multiplication by 10 until the remainder vanishes.  The fuel bound
1100 covers the finite decimal expansion of every binary double (the
longest is 1074 fractional digits, for the smallest denormal). -/
def fracDigitChars : ℕ → ℕ → ℕ → List Char
  | 0, _, _ => []
  | fuel + 1, num, den =>
    if num = 0 then []
    else Char.ofNat (48 + num * 10 / den) :: fracDigitChars fuel (num * 10 % den) den

/-- `amount.toString()`: optional minus sign, decimal digits of the integer
part, and the decimal expansion of the fractional part when non-zero
(plain notation; the modelled JS numbers are dyadic rationals, whose
expansions are finite). -/
def amountToString (q : ℚ) : String :=
  let n := q.num.natAbs
  let d := q.den
  let digits :=
    if n % d = 0 then Nat.toDigits 10 (n / d)
    else Nat.toDigits 10 (n / d) ++ '.' :: fracDigitChars 1100 (n % d) d
  if q < 0 then String.mk ('-' :: digits) else String.mk digits

/-- The filter body of `filteredExpenses` (the arrow function passed to
`expenses.filter`): `e.label?.toLowerCase().includes(query)` is `undefined`
(falsy) when `label` is absent. -/
def matchesQuery (searchQuery : String) (e : Expense) : Bool :=
  jsIncludes (jsToLower e.person) (jsToLower searchQuery) ||
  (match e.label with
   | some l => jsIncludes (jsToLower l) (jsToLower searchQuery)
   | none => false) ||
  jsIncludes (amountToString e.amount) (jsToLower searchQuery) ||
  jsIncludes (jsToLower e.mode.toStr) (jsToLower searchQuery)

/-- `filteredExpenses`: identity on an empty query (a JS string is falsy
exactly when empty), otherwise `expenses.filter` with `matchesQuery`. -/
def filteredExpenses (expenses : List Expense) (searchQuery : String) :
    List Expense :=
  if searchQuery = "" then expenses
  else expenses.filter (matchesQuery searchQuery)

/-- The record predicate in the spec's words, for comparison with
`matchesQuery`: the lowercased query is a substring of the lowercased
person name, the lowercased label (treated as the empty string when
absent), the amount's decimal string form, or the lowercased mode name. -/
def specMatches (query : String) (e : Expense) : Bool :=
  jsIncludes (jsToLower e.person) (jsToLower query) ||
  jsIncludes (jsToLower (e.label.getD "")) (jsToLower query) ||
  jsIncludes (amountToString e.amount) (jsToLower query) ||
  jsIncludes (jsToLower e.mode.toStr) (jsToLower query)

theorem jsToLower_eq_empty_iff (s : String) : jsToLower s = "" ↔ s = "" := by
  rw [String.ext_iff, String.ext_iff]
  show s.data.map Char.toLower = [] ↔ s.data = ([] : List Char)
  exact List.map_eq_nil_iff

theorem jsIncludes_empty_hay (needle : String) (h : needle.data ≠ []) :
    jsIncludes "" needle = false := by
  obtain ⟨c, cs, hn⟩ : ∃ c cs, needle.data = c :: cs := by
    cases hn : needle.data with
    | nil => exact absurd hn h
    | cons c cs => exact ⟨c, cs, rfl⟩
  rw [jsIncludes, hn]
  rfl

/-- C6: filtering with the empty query is the identity (order preserved);
with a non-empty query the result is exactly the records matching the
spec's predicate (case-insensitive substring over person, label with
absent-as-empty, amount's decimal string, mode); and two queries equal up
to lowercasing filter identically. -/
theorem filteredExpenses_characterization (es : List Expense) (q q' : String)
    (hlow : jsToLower q = jsToLower q') :
    filteredExpenses es "" = es ∧
    (q ≠ "" → filteredExpenses es q = es.filter (specMatches q)) ∧
    filteredExpenses es q = filteredExpenses es q' := by
  refine ⟨by rw [filteredExpenses, if_pos rfl], fun hq => ?_, ?_⟩
  · rw [filteredExpenses, if_neg hq]
    refine List.filter_congr fun e _ => ?_
    rw [matchesQuery, specMatches]
    cases hl : e.label with
    | some l => rfl
    | none =>
      have hne : (jsToLower q).data ≠ [] := by
        intro hc
        exact hq ((jsToLower_eq_empty_iff q).mp (String.ext hc))
      have hfalse : jsIncludes (jsToLower (Option.getD none "")) (jsToLower q)
          = false := jsIncludes_empty_hay _ hne
      rw [hfalse]
  · by_cases hq : q = ""
    · subst hq
      have hq' : q' = "" := by
        rw [← jsToLower_eq_empty_iff, ← hlow]
        rfl
      rw [hq']
    · have hq' : q' ≠ "" := by
        intro hc
        subst hc
        exact hq ((jsToLower_eq_empty_iff q).mp (by rw [hlow]; rfl))
      rw [filteredExpenses, if_neg hq, filteredExpenses, if_neg hq']
      refine List.filter_congr fun e _ => ?_
      rw [matchesQuery, matchesQuery, hlow]

/-- Witness for C6: a record with person "Rohit" is filtered identically by
the queries "ROHIT" and "rohit". -/
theorem filteredExpenses_characterization_witness :
    jsToLower "ROHIT" = jsToLower "rohit" ∧
    filteredExpenses [sampleExpense] "ROHIT" =
      filteredExpenses [sampleExpense] "rohit" :=
  ⟨by decide, (filteredExpenses_characterization [sampleExpense]
    "ROHIT" "rohit" (by decide)).2.2⟩
